import Mathlib

/-!
Shallow embedding of the invitation-lifecycle and subscription-webhook core of
the `stab` repository (Go sources under `models/`, `internal/logic/teams/` and
`internal/logic/billing/`).

Modelling conventions:
* gorm rows become Lean structures; UUIDs become `Nat`, `time.Time` becomes
  `Nat` ticks, status strings stay `String` (they are string types in Go).
* gorm soft deletion (`DeletedAt`) becomes a `deleted : Bool` flag; every query
  filters it out, as gorm does.
* The storage layer is a `DBState` of lists; transactions are modelled per
  spec section 5, which delegates correctness to the storage layer: a
  transaction's reads see the committed state `db0` at its start, the guarded
  conditional update and any re-read see the committed state `dbMid` current
  at the moment the write executes (under read-committed isolation another
  committed transaction may separate the two; the serialized case is
  `dbMid = db0`).  On an error return the transaction rolls back its own
  staged writes, so the resulting committed state is `dbMid`.
* Fallible Go functions return an `Option ModelError` alongside their result.
-/

namespace Stab

def statusPending : String := "pending"

def statusAccepted : String := "accepted"

def statusDeclined : String := "declined"

def statusExpired : String := "expired"

def roleOwner : String := "owner"

def roleAdmin : String := "admin"

def roleMember : String := "member"

/-- models/invitation.go `Invitation` (id, email, team, inviter, role, token,
status, expiry, gorm soft-delete flag). -/
structure Invitation where
  id : Nat
  email : String
  teamId : Nat
  inviterId : Nat
  role : String
  token : String
  status : String
  expiresAt : Nat
  deleted : Bool
deriving DecidableEq

/-- models/billing.go `Membership` (unique (userId, teamId), role, soft-delete). -/
structure Membership where
  id : Nat
  userId : Nat
  teamId : Nat
  role : String
  deleted : Bool
deriving DecidableEq

/-- The slice of the user row the core touches (id, email, stripe customer id). -/
structure User where
  id : Nat
  email : String
  stripeCustomerId : String
deriving DecidableEq

/-- models/billing.go `Subscription` keyed by the external (Stripe) id. -/
structure Subscription where
  id : Nat
  userId : Nat
  planId : String
  stripeSubscriptionID : String
  status : String
  currentPeriodStart : Int
  currentPeriodEnd : Int
  cancelAtPeriodEnd : Bool
deriving DecidableEq

/-- models/billing.go `Plan` (string primary key, monthly and optional yearly
Stripe price ids). -/
structure Plan where
  id : String
  stripePriceID : String
  stripePriceIDYearly : Option String
deriving DecidableEq

/-- The committed storage state the core reads and writes. -/
structure DBState where
  invitations : List Invitation
  memberships : List Membership
  users : List User
  subscriptions : List Subscription
  plans : List Plan
deriving DecidableEq

/-- Gorm `db.Where("token = ?", token).First(&invitation)`: first live row with the
token (gorm filters soft-deleted rows). -/
def findInvitationByToken (invs : List Invitation) (token : String) : Option Invitation :=
  invs.find? (fun i => !i.deleted && i.token == token)

/-- Gorm `db.First(&invitation, invitationID)`: first live row with the primary key. -/
def findInvitationById (invs : List Invitation) (invitationId : Nat) : Option Invitation :=
  invs.find? (fun i => !i.deleted && i.id == invitationId)

/-- Gorm `db.Where("user_id = ? AND team_id = ?", ...).First(&membership)`. -/
def findMembershipByUserAndTeam (ms : List Membership) (userId teamId : Nat) : Option Membership :=
  ms.find? (fun m => !m.deleted && m.userId == userId && m.teamId == teamId)

/-- Gorm `tx.First(&user, userID)`. -/
def findUserById (us : List User) (userId : Nat) : Option User :=
  us.find? (fun u => u.id == userId)

/-- Row condition of the guarded write
`tx.Model(&invitation).Where("status = ?", StatusPending).Update(...)`:
primary key of the loaded row plus the still-pending guard (gorm also adds the
soft-delete filter). -/
def guardedStatusCond (invitationId : Nat) (i : Invitation) : Bool :=
  !i.deleted && i.id == invitationId && i.status == statusPending

/-- The `RowsAffected` count of the guarded conditional update, evaluated on the
committed state current when the write executes. -/
def guardedRowsAffected (invs : List Invitation) (invitationId : Nat) : Nat :=
  invs.countP (guardedStatusCond invitationId)

/-- Effect of the guarded conditional update on the rows it matches. -/
def applyGuardedStatusUpdate (invs : List Invitation) (invitationId : Nat)
    (newStatus : String) : List Invitation :=
  invs.map (fun i => if guardedStatusCond invitationId i then { i with status := newStatus } else i)

/-- The error values the invitation model functions return (Go sentinel errors
and `errors.New` messages). -/
inductive ModelError where
  | recordNotFound
  | invitationNoLongerPending
  | invitationExpired
  | acceptingUserNotFound
  | emailMismatch
  | acceptUpdateRaceFailed
  | statusChangedUnexpectedly
  | invalidInvitationRole
deriving DecidableEq

/-- Result triple of models/invitation.go `UpdateInvitationStatus`. -/
structure UpdateStatusOut where
  invitation : Option Invitation
  err : Option ModelError
  db : DBState
deriving DecidableEq

/-- models/invitation.go `UpdateInvitationStatus`: find the row, return early
success when it already carries the target status, reject non-pending rows,
otherwise attempt the guarded pending-only update; when it affects zero rows,
re-fetch and return the `statusChangedUnexpectedly` error with the observed
row.  `db0` is the committed state at the initial find, `dbMid` the committed
state seen by the guarded update and the re-fetch. -/
def updateInvitationStatus (db0 dbMid : DBState) (invitationId : Nat)
    (newStatus : String) : UpdateStatusOut :=
  match findInvitationById db0.invitations invitationId with
  | none => ⟨none, some .recordNotFound, dbMid⟩
  | some inv =>
    if inv.status == newStatus then ⟨some inv, none, dbMid⟩
    else if inv.status != statusPending then ⟨some inv, some .invitationNoLongerPending, dbMid⟩
    else if guardedRowsAffected dbMid.invitations invitationId == 0 then
      ⟨some ((findInvitationById dbMid.invitations invitationId).getD inv),
        some .statusChangedUnexpectedly, dbMid⟩
    else
      ⟨some { inv with status := newStatus }, none,
        { dbMid with invitations := applyGuardedStatusUpdate dbMid.invitations invitationId newStatus }⟩

/-- Result of models/invitation.go `AcceptInvitation` (membership, final
invitation, error, committed storage state after the call). -/
structure AcceptOut where
  membership : Option Membership
  invitation : Option Invitation
  err : Option ModelError
  db : DBState
deriving DecidableEq

/-- Fresh primary key for a row inserted by `FirstOrCreate` (stands in for the
generated UUID; no property depends on its value). -/
def freshMembershipId (ms : List Membership) : Nat :=
  (ms.map Membership.id).foldr Nat.max 0 + 1

/-- models/invitation.go `AcceptInvitation`, one transaction: find by token,
reject non-pending, reject expired (`time.Now().After(ExpiresAt)`), check the
accepting user's email, `FirstOrCreate` the membership by (user, team), then
the guarded pending→accepted update; zero rows affected re-reads by token and
returns the race error, rolling the staged membership insert back.  `db0` is
the committed state the transaction's reads see, `dbMid` the committed state
at the guarded write (serialized case: `dbMid = db0`). -/
def acceptInvitation (db0 dbMid : DBState) (now : Nat) (userId : Nat)
    (token : String) : AcceptOut :=
  match findInvitationByToken db0.invitations token with
  | none => ⟨none, none, some .recordNotFound, dbMid⟩
  | some inv =>
    if inv.status != statusPending then ⟨none, some inv, some .invitationNoLongerPending, dbMid⟩
    else if inv.expiresAt < now then ⟨none, some inv, some .invitationExpired, dbMid⟩
    else
      match findUserById db0.users userId with
      | none => ⟨none, some inv, some .acceptingUserNotFound, dbMid⟩
      | some user =>
        if user.email != inv.email then ⟨none, some inv, some .emailMismatch, dbMid⟩
        else
          let found := findMembershipByUserAndTeam db0.memberships userId inv.teamId
          let membership := match found with
            | some m => m
            | none => ⟨freshMembershipId db0.memberships, userId, inv.teamId, inv.role, false⟩
          if guardedRowsAffected dbMid.invitations inv.id == 0 then
            ⟨none, some ((findInvitationByToken dbMid.invitations token).getD inv),
              some .acceptUpdateRaceFailed, dbMid⟩
          else
            let newMemberships := match found with
              | some _ => dbMid.memberships
              | none => dbMid.memberships ++ [membership]
            ⟨some membership, some { inv with status := statusAccepted }, none,
              { dbMid with
                  memberships := newMemberships,
                  invitations := applyGuardedStatusUpdate dbMid.invitations inv.id statusAccepted }⟩

/-- models/invitation.go `DeleteInvitation`: find by primary key, then gorm
soft delete (sets the deleted flag; the status column is untouched). -/
def deleteInvitation (db : DBState) (invitationId : Nat) : Option ModelError × DBState :=
  match findInvitationById db.invitations invitationId with
  | none => (some .recordNotFound, db)
  | some _ =>
    let invs := db.invitations.map
      (fun i => if !i.deleted && i.id == invitationId then { i with deleted := true } else i)
    (none, { db with invitations := invs })

/-- models/invitation.go `BeforeCreate` hook: default status `pending` when
empty, default expiry now + 7 days when zero, reject the owner role and any
role other than admin/member. -/
def invitationBeforeCreate (inv : Invitation) (now : Nat) : Option Invitation :=
  let inv1 := if inv.status == "" then { inv with status := statusPending } else inv
  let inv2 := if inv1.expiresAt == 0 then { inv1 with expiresAt := now + 7 * 24 * 60 * 60 } else inv1
  if inv2.role == roleOwner then none
  else if inv2.role == roleAdmin || inv2.role == roleMember then some inv2
  else none

/-- internal/logic/teams/invitemember.go step 8: build the invitation with
`Status: models.StatusPending` set explicitly, then `models.CreateInvitation`
(which runs the `BeforeCreate` hook and inserts the row). -/
def inviteMemberCreate (db : DBState) (inv : Invitation) (now : Nat) :
    Option ModelError × DBState :=
  match invitationBeforeCreate { inv with status := statusPending } now with
  | none => (some .invalidInvitationRole, db)
  | some stored => (none, { db with invitations := db.invitations ++ [stored] })

/-- The four repository entry points that write invitation rows: invite
(member creation), accept, decline (the only `UpdateInvitationStatus` call
site, with `StatusDeclined`), cancel (soft delete). -/
inductive InvitationOp where
  | invite (inv : Invitation) (now : Nat)
  | accept (now userId : Nat) (token : String)
  | decline (invitationId : Nat)
  | cancel (invitationId : Nat)
deriving DecidableEq

/-- Serialized execution of one invitation-writing entry point. -/
def applyInvitationOp (db : DBState) : InvitationOp → DBState
  | .invite inv now => (inviteMemberCreate db inv now).2
  | .accept now userId token => (acceptInvitation db db now userId token).db
  | .decline invitationId => (updateInvitationStatus db db invitationId statusDeclined).db
  | .cancel invitationId => (deleteInvitation db invitationId).2

/-- The status vocabulary any reachable invitation row carries. -/
def statusInVocab (s : String) : Prop :=
  s = statusPending ∨ s = statusAccepted ∨ s = statusDeclined

instance : DecidablePred statusInVocab := fun s => by
  unfold statusInVocab
  infer_instance

/-- Every stored invitation row's status lies in the written vocabulary. -/
def invitationStatusesOK (db : DBState) : Prop :=
  ∀ i ∈ db.invitations, statusInVocab i.status

instance (db : DBState) : Decidable (invitationStatusesOK db) := by
  unfold invitationStatusesOK
  infer_instance

/-! ## Stripe webhook processor (internal/logic/billing/subscription.go)

Stripe SDK payload objects: pointer-typed fields (`*stripe.Customer`,
`*stripe.Subscription` on the session/invoice) become `Option`; dereferencing
a `none` pointer is the Go nil-pointer panic, surfaced as a distinguished
outcome. -/

/-- A nested Stripe object of which only the id is read
(`session.Customer`, `session.Subscription`, `invoice.Subscription`). -/
structure StripeRef where
  id : String
deriving DecidableEq

/-- The `stripe.CheckoutSession` payload: client reference plus pointer-typed customer and
subscription objects. -/
structure CheckoutSession where
  clientReferenceID : String
  customer : Option StripeRef
  subscription : Option StripeRef
deriving DecidableEq

/-- The `stripe.Price` object: only the id is read. -/
structure StripePrice where
  id : String
deriving DecidableEq

/-- One element of `sub.Items.Data`; the price pointer may be nil. -/
structure StripeSubItem where
  price : Option StripePrice
deriving DecidableEq

/-- The `stripe.Subscription` detail (from the event body or fetched live). -/
structure StripeSubscription where
  id : String
  status : String
  currentPeriodStart : Int
  currentPeriodEnd : Int
  cancelAtPeriodEnd : Bool
  items : List StripeSubItem
deriving DecidableEq

/-- The `stripe.Invoice` payload: status plus the pointer-typed subscription link. -/
structure StripeInvoice where
  id : String
  status : String
  subscription : Option StripeRef
deriving DecidableEq

/-- A verified Stripe event after `webhook.ConstructEvent` plus the
per-type `json.Unmarshal` (whose failure is the `none` payload). -/
inductive StripeEvent where
  | checkoutCompleted (parsed : Option CheckoutSession)
  | subscriptionUpdated (parsed : Option StripeSubscription)
  | subscriptionDeleted (parsed : Option StripeSubscription)
  | invoicePaid (parsed : Option StripeInvoice)
  | invoicePaymentFailed (parsed : Option StripeInvoice)
  | other (eventType : String)
deriving DecidableEq

/-- Outcome of a handler or of the whole webhook endpoint: success
acknowledgement, an `echo.NewHTTPError` with its status code, or a Go runtime
panic from dereferencing a nil pointer. -/
inductive HandlerOutcome where
  | ok
  | httpError (status : Nat)
  | panicNilDeref
deriving DecidableEq

/-- Gorm `Where("stripe_price_id = ?", p).Or("stripe_price_id_yearly = ?", p).First(&plan)`. -/
def findPlanByPrice (plans : List Plan) (priceId : String) : Option Plan :=
  plans.find? (fun p => p.stripePriceID == priceId || p.stripePriceIDYearly == some priceId)

/-- Gorm `Where("stripe_subscription_id = ?", sid).First(&sub)`. -/
def findSubscriptionByStripeId (subs : List Subscription) (sid : String) : Option Subscription :=
  subs.find? (fun s => s.stripeSubscriptionID == sid)

/-- Number of stored Subscription rows carrying the external id. -/
def countSubscriptionsByStripeId (subs : List Subscription) (sid : String) : Nat :=
  subs.countP (fun s => s.stripeSubscriptionID == sid)

/-- Fresh primary key for an inserted Subscription row (stands in for the
generated UUID). -/
def freshSubscriptionId (subs : List Subscription) : Nat :=
  (subs.map Subscription.id).foldr Nat.max 0 + 1

/-- Gorm `tx.Model(&models.User\{\}).Where("id = ?", userID).Update("stripe_customer_id", cid)`. -/
def setUserStripeCustomerId (us : List User) (userId : Nat) (cid : String) : List User :=
  us.map (fun u => if u.id == userId then { u with stripeCustomerId := cid } else u)

/-- Effect on a found row of the UPDATE that `Assign(struct).FirstOrCreate`
issues: gorm builds the assignment map from the struct's non-zero fields only
(`BuildCondition` drops zero values), so a zero uuid, an empty string and a
false flag are omitted and the stored value survives.  The period bounds are
produced by `time.Unix`, which never yields Go's zero `time.Time`, so they
are always assigned. -/
def assignFields (record s : Subscription) : Subscription :=
  { s with
      id := if record.id == 0 then s.id else record.id,
      userId := if record.userId == 0 then s.userId else record.userId,
      planId := if record.planId == "" then s.planId else record.planId,
      stripeSubscriptionID :=
        if record.stripeSubscriptionID == "" then s.stripeSubscriptionID
        else record.stripeSubscriptionID,
      status := if record.status == "" then s.status else record.status,
      currentPeriodStart := record.currentPeriodStart,
      currentPeriodEnd := record.currentPeriodEnd,
      cancelAtPeriodEnd := if record.cancelAtPeriodEnd then true else s.cancelAtPeriodEnd }

/-- Gorm `tx.Where(Subscription\{StripeSubscriptionID: sid\}).Assign(record).FirstOrCreate(...)`:
when a row with the external id exists, update it with the record's non-zero
fields (`assignFields`); otherwise insert the record, the database generating
the primary key the Go struct literal leaves at its zero value. -/
def upsertSubscriptionByStripeId (subs : List Subscription) (record : Subscription) :
    List Subscription :=
  if subs.any (fun s => s.stripeSubscriptionID == record.stripeSubscriptionID) then
    subs.map (fun s =>
      if s.stripeSubscriptionID == record.stripeSubscriptionID then assignFields record s
      else s)
  else subs ++ [{ record with id := freshSubscriptionId subs }]

/-- subscription.go `handleCheckoutSessionCompleted`.  The entry log on line
221 dereferences `session.Customer.ID` and `session.Subscription.ID` before
the nil guards on lines 225-231 run, so a nil object panics there.
`fetchSub` is the out-of-transaction `subscription.Get` call to Stripe,
`parseUserId` is `uuid.Parse` of the client reference. -/
def handleCheckoutSessionCompleted (st : DBState)
    (fetchSub : String → Option StripeSubscription)
    (parseUserId : String → Option Nat)
    (session : CheckoutSession) : HandlerOutcome × DBState :=
  match session.customer, session.subscription with
  | none, _ => (.panicNilDeref, st)
  | _, none => (.panicNilDeref, st)
  | some customer, some subRef =>
    if session.clientReferenceID == "" || customer.id == "" || subRef.id == "" then
      (.httpError 400, st)
    else
      match parseUserId session.clientReferenceID with
      | none => (.httpError 400, st)
      | some userId =>
        match fetchSub subRef.id with
        | none => (.httpError 500, st)
        | some sub =>
          match sub.items.head? with
          | none => (.httpError 400, st)
          | some item0 =>
            match item0.price with
            | none => (.httpError 400, st)
            | some price =>
              match findPlanByPrice st.plans price.id with
              | none => (.httpError 500, st)
              | some plan =>
                match findUserById st.users userId with
                | none => (.httpError 400, st)
                | some _ =>
                  let record : Subscription :=
                    ⟨0, userId, plan.id, subRef.id, sub.status, sub.currentPeriodStart,
                      sub.currentPeriodEnd, sub.cancelAtPeriodEnd⟩
                  (.ok, { st with
                            users := setUserStripeCustomerId st.users userId customer.id,
                            subscriptions := upsertSubscriptionByStripeId st.subscriptions record })

/-- subscription.go `handleSubscriptionUpdated`: unknown external id is a
logged no-op success; otherwise re-resolve the plan from the event's price
(keeping the stored plan when no match) and update status, period bounds,
cancel flag and plan atomically by the found row's primary key. -/
def handleSubscriptionUpdated (st : DBState) (sub : StripeSubscription) :
    HandlerOutcome × DBState :=
  match findSubscriptionByStripeId st.subscriptions sub.id with
  | none => (.ok, st)
  | some existing =>
    let planId := match sub.items.head? with
      | some item0 =>
        match item0.price with
        | some price =>
          match findPlanByPrice st.plans price.id with
          | some plan => plan.id
          | none => existing.planId
        | none => existing.planId
      | none => existing.planId
    let subs := st.subscriptions.map (fun s =>
      if s.id == existing.id then
        { s with status := sub.status, currentPeriodStart := sub.currentPeriodStart,
                 currentPeriodEnd := sub.currentPeriodEnd,
                 cancelAtPeriodEnd := sub.cancelAtPeriodEnd, planId := planId }
      else s)
    (.ok, { st with subscriptions := subs })

/-- subscription.go `handleSubscriptionDeleted`: set the status carried by the
event on the row with the external id; zero rows affected is a logged
success. -/
def handleSubscriptionDeleted (st : DBState) (sub : StripeSubscription) :
    HandlerOutcome × DBState :=
  let subs := st.subscriptions.map (fun s =>
    if s.stripeSubscriptionID == sub.id then { s with status := sub.status } else s)
  (.ok, { st with subscriptions := subs })

/-- subscription.go `handleInvoicePaid`.  The entry log on line 397
dereferences `invoice.Subscription.ID` before the guard on line 399 runs, so
an invoice without a subscription link panics there.  Otherwise: ignored
unless the invoice status is "paid" and the link is non-empty; when
applicable the linked row's status is set to "active", zero rows affected
being a logged success. -/
def handleInvoicePaid (st : DBState) (invoice : StripeInvoice) :
    HandlerOutcome × DBState :=
  match invoice.subscription with
  | none => (.panicNilDeref, st)
  | some subRef =>
    if invoice.status != "paid" || subRef.id == "" then (.ok, st)
    else
      let subs := st.subscriptions.map (fun s =>
        if s.stripeSubscriptionID == subRef.id then { s with status := "active" } else s)
      (.ok, { st with subscriptions := subs })

/-- subscription.go `handleInvoicePaymentFailed`: same entry-log dereference
(line 431); set "past_due" on the linked row when linked. -/
def handleInvoicePaymentFailed (st : DBState) (invoice : StripeInvoice) :
    HandlerOutcome × DBState :=
  match invoice.subscription with
  | none => (.panicNilDeref, st)
  | some subRef =>
    if subRef.id == "" then (.ok, st)
    else
      let subs := st.subscriptions.map (fun s =>
        if s.stripeSubscriptionID == subRef.id then { s with status := "past_due" } else s)
      (.ok, { st with subscriptions := subs })

/-- subscription.go `PostStripeWebhook`: reject a missing signature header,
reject a missing configured secret, verify the signature
(`webhook.ConstructEvent`, abstracted as `verify`), reject a missing Stripe
key, then dispatch by event type; a payload that fails to parse is a 400;
unknown event types are acknowledged as success. -/
def postStripeWebhook (st : DBState)
    (verify : String → String → String → Option StripeEvent)
    (fetchSub : String → Option StripeSubscription)
    (parseUserId : String → Option Nat)
    (webhookSecret stripeKey : String)
    (payload signature : String) : HandlerOutcome × DBState :=
  if signature == "" then (.httpError 400, st)
  else if webhookSecret == "" then (.httpError 500, st)
  else
    match verify payload signature webhookSecret with
    | none => (.httpError 400, st)
    | some event =>
      if stripeKey == "" then (.httpError 500, st)
      else
        match event with
        | .checkoutCompleted none => (.httpError 400, st)
        | .checkoutCompleted (some session) =>
          handleCheckoutSessionCompleted st fetchSub parseUserId session
        | .subscriptionUpdated none => (.httpError 400, st)
        | .subscriptionUpdated (some sub) => handleSubscriptionUpdated st sub
        | .subscriptionDeleted none => (.httpError 400, st)
        | .subscriptionDeleted (some sub) => handleSubscriptionDeleted st sub
        | .invoicePaid none => (.httpError 400, st)
        | .invoicePaid (some invoice) => handleInvoicePaid st invoice
        | .invoicePaymentFailed none => (.httpError 400, st)
        | .invoicePaymentFailed (some invoice) => handleInvoicePaymentFailed st invoice
        | .other _ => (.ok, st)

/-- Stored membership rows for the (user, team) pair. -/
def countMembershipRows (ms : List Membership) (userId teamId : Nat) : Nat :=
  ms.countP (fun m => !m.deleted && m.userId == userId && m.teamId == teamId)

/-! ## Concrete fixtures used by witnesses and counterexamples -/

/-- A live pending invitation for team 10 addressed to `a@x.com`. -/
def exInvitation : Invitation :=
  ⟨1, "a@x.com", 10, 2, "member", "tok", statusPending, 1000, false⟩

/-- The invited user. -/
def exUser : User := ⟨5, "a@x.com", ""⟩

/-- Storage holding the pending invitation and the invited user. -/
def exDb : DBState := ⟨[exInvitation], [], [exUser], [], []⟩

/-- The row `exInvitation` after another caller committed a pending→declined transition. -/
def exInvitationDeclined : Invitation :=
  ⟨1, "a@x.com", 10, 2, "member", "tok", statusDeclined, 1000, false⟩

/-- The state `exDb` after another caller committed a pending→declined transition. -/
def exDbDeclined : DBState := ⟨[exInvitationDeclined], [], [exUser], [], []⟩

/-- An empty storage state. -/
def exEmptyDb : DBState := ⟨[], [], [], [], []⟩

/-- An existing membership for the invited user in team 10 with a role that
differs from the offered one. -/
def exMembershipAdmin : Membership := ⟨7, 5, 10, roleAdmin, false⟩

/-- The state `exDb` where the invited user is already an admin member of team 10. -/
def exDbWithMembership : DBState := ⟨[exInvitation], [exMembershipAdmin], [exUser], [], []⟩

/-- A checkout-completed payload whose customer object is absent (nil). -/
def exSessionNilCustomer : CheckoutSession :=
  ⟨"33333333-3333-3333-3333-333333333333", none, some ⟨"sub_ex1"⟩⟩

/-- A paid invoice not linked to any subscription (nil subscription). -/
def exInvoiceNilSubscription : StripeInvoice := ⟨"in_ex1", "paid", none⟩

/-- The internal plan matching the montly price `price_m`. -/
def exPlan : Plan := ⟨"pro", "price_m", some "price_y"⟩

/-- The provider-side subscription detail returned by the live fetch. -/
def exStripeSub : StripeSubscription := ⟨"sub_1", "active", 100, 200, false, [⟨some ⟨"price_m"⟩⟩]⟩

/-- A complete checkout-completed payload for user `u5`. -/
def exSession : CheckoutSession := ⟨"u5", some ⟨"cus_1"⟩, some ⟨"sub_1"⟩⟩

/-- Billing storage: the user and the plan exist, no subscription rows yet. -/
def exStBilling : DBState := ⟨[], [], [exUser], [], [exPlan]⟩

/-- The abstracted `subscription.Get` returning the provider detail. -/
def exFetch : String → Option StripeSubscription := fun _ => some exStripeSub

/-- The abstracted `uuid.Parse` resolving the client reference `u5`. -/
def exParse : String → Option Nat := fun s => if s == "u5" then some 5 else none

/-! ## Helper lemmas -/

theorem find?_map_pred_stable {α : Type} (f : α → α) (p : α → Bool)
    (hp : ∀ a, p (f a) = p a) (l : List α) :
    (l.map f).find? p = (l.find? p).map f := by
  induction l with
  | nil => rfl
  | cons a t ih =>
    by_cases h : p a = true
    · rw [List.map_cons, List.find?_cons_of_pos _ (by rw [hp]; exact h),
        List.find?_cons_of_pos _ h]
      rfl
    · have h' : ¬ p (f a) = true := by rw [hp]; exact h
      rw [List.map_cons, List.find?_cons_of_neg _ h', List.find?_cons_of_neg _ h, ih]

theorem countP_map_stable {α : Type} (f : α → α) (p : α → Bool)
    (hp : ∀ a, p (f a) = p a) (l : List α) : (l.map f).countP p = l.countP p := by
  induction l with
  | nil => rfl
  | cons a t ih => simp [List.countP_cons, hp, ih]

/-- A row found by token that is still pending satisfies the guarded-write
condition for its own primary key. -/
theorem guardedStatusCond_self (inv : Invitation) (token : String)
    (hp : (!inv.deleted && inv.token == token) = true)
    (hpend : inv.status = statusPending) :
    guardedStatusCond inv.id inv = true := by
  simp only [Bool.and_eq_true] at hp
  simp [guardedStatusCond, hp.1, hpend]

/-- The guarded write against the same committed state its row was read from
affects at least one row. -/
theorem guardedRows_pos (invs : List Invitation) (token : String) (inv : Invitation)
    (hfind : findInvitationByToken invs token = some inv)
    (hpend : inv.status = statusPending) :
    guardedRowsAffected invs inv.id ≠ 0 := by
  unfold findInvitationByToken at hfind
  have hmem : inv ∈ invs := List.mem_of_find?_eq_some hfind
  have hp : (!inv.deleted && inv.token == token) = true := by
    simpa using List.find?_some hfind
  have hcond := guardedStatusCond_self inv token hp hpend
  have hpos : 0 < invs.countP (guardedStatusCond inv.id) :=
    List.countP_pos_iff.mpr ⟨inv, hmem, hcond⟩
  unfold guardedRowsAffected
  omega

/-- Reading by token after the guarded pending→`newStatus` update finds the
same row with the new status. -/
theorem findInvitationByToken_after_guarded_update
    (invs : List Invitation) (token : String) (inv : Invitation) (newStatus : String)
    (hfind : findInvitationByToken invs token = some inv)
    (hpend : inv.status = statusPending) :
    findInvitationByToken (applyGuardedStatusUpdate invs inv.id newStatus) token =
      some { inv with status := newStatus } := by
  unfold findInvitationByToken at hfind
  have hp : (!inv.deleted && inv.token == token) = true := by
    simpa using List.find?_some hfind
  have hcond := guardedStatusCond_self inv token hp hpend
  have hstable : ∀ a : Invitation,
      (fun i => !i.deleted && i.token == token)
        (if guardedStatusCond inv.id a then { a with status := newStatus } else a) =
      (fun i => !i.deleted && i.token == token) a := by
    intro a
    by_cases hc : guardedStatusCond inv.id a = true
    · simp [hc]
    · simp [hc]
  unfold findInvitationByToken applyGuardedStatusUpdate
  rw [find?_map_pred_stable _ _ hstable invs]
  rw [hfind]
  simp [hcond]

/-- Running `AcceptInvitation` on a valid pending invitation with no prior membership:
fresh transition, membership row inserted with the offered role. -/
theorem acceptInvitation_fresh_success
    (db : DBState) (now userId : Nat) (token : String) (inv : Invitation) (u : User)
    (hfind : findInvitationByToken db.invitations token = some inv)
    (hpend : inv.status = statusPending)
    (hexp : ¬ inv.expiresAt < now)
    (huser : findUserById db.users userId = some u)
    (hemail : u.email = inv.email)
    (hmem : findMembershipByUserAndTeam db.memberships userId inv.teamId = none) :
    acceptInvitation db db now userId token =
      ⟨some ⟨freshMembershipId db.memberships, userId, inv.teamId, inv.role, false⟩,
        some { inv with status := statusAccepted }, none,
        { db with
            memberships := db.memberships ++
              [⟨freshMembershipId db.memberships, userId, inv.teamId, inv.role, false⟩],
            invitations := applyGuardedStatusUpdate db.invitations inv.id statusAccepted }⟩ := by
  have hgz := guardedRows_pos db.invitations token inv hfind hpend
  unfold acceptInvitation
  rw [hfind]
  simp [hpend, hexp, huser, hemail, hmem, hgz]

/-- Running `AcceptInvitation` on a valid pending invitation when a membership row
already exists: the row is returned as found, no membership write occurs. -/
theorem acceptInvitation_existing_success
    (db : DBState) (now userId : Nat) (token : String) (inv : Invitation) (u : User)
    (m : Membership)
    (hfind : findInvitationByToken db.invitations token = some inv)
    (hpend : inv.status = statusPending)
    (hexp : ¬ inv.expiresAt < now)
    (huser : findUserById db.users userId = some u)
    (hemail : u.email = inv.email)
    (hmem : findMembershipByUserAndTeam db.memberships userId inv.teamId = some m) :
    acceptInvitation db db now userId token =
      ⟨some m, some { inv with status := statusAccepted }, none,
        { db with invitations := applyGuardedStatusUpdate db.invitations inv.id statusAccepted }⟩ := by
  have hgz := guardedRows_pos db.invitations token inv hfind hpend
  unfold acceptInvitation
  rw [hfind]
  simp [hpend, hexp, huser, hemail, hmem, hgz]

/-- A map whose function fixes every element failing the predicate is the
identity on a list none of whose elements satisfy it. -/
theorem map_id_of_pred_false {α : Type} (f : α → α) (p : α → Bool)
    (hf : ∀ a, p a = false → f a = a) (l : List α) (hl : ∀ a ∈ l, p a = false) :
    l.map f = l := by
  induction l with
  | nil => rfl
  | cons a t ih =>
    rw [List.map_cons, hf a (hl a (List.mem_cons_self a t)),
      ih (fun b hb => hl b (List.mem_cons_of_mem a hb))]

/-- Re-assigning a row that was created from the very same record changes
nothing: every field gorm drops as zero-valued already holds the record's
(zero) value in the stored row, and every assigned field already holds the
assigned value. -/
theorem assignFields_created (userId : Nat) (planId sid status : String)
    (cps cpe : Int) (cap : Bool) (n : Nat) :
    assignFields ⟨0, userId, planId, sid, status, cps, cpe, cap⟩
      ⟨n, userId, planId, sid, status, cps, cpe, cap⟩ =
      ⟨n, userId, planId, sid, status, cps, cpe, cap⟩ := by
  unfold assignFields
  cases cap <;> simp

/-- The customer-id write keeps the user row findable by its primary key. -/
theorem findUserById_after_setStripe (us : List User) (userId : Nat) (cid : String) (u : User)
    (h : findUserById us userId = some u) :
    findUserById (setUserStripeCustomerId us userId cid) userId =
      some (if (u.id == userId) = true then { u with stripeCustomerId := cid } else u) := by
  have hstable : ∀ a : User,
      ((fun x => x.id == userId)
        (if (a.id == userId) = true then { a with stripeCustomerId := cid } else a)) =
      ((fun x => x.id == userId) a) := by
    intro a
    by_cases hc : (a.id == userId) = true
    · simp [hc]
    · simp [hc]
  unfold findUserById at h ⊢
  unfold setUserStripeCustomerId
  rw [find?_map_pred_stable _ _ hstable us, h]
  rfl

/-! ## Claim theorems -/

/-- C3: for a stored pending invitation whose expiry timestamp is in the past,
`AcceptInvitation` returns the Expired outcome and leaves the storage state —
in particular the invitation row and the membership table — unchanged. -/
theorem acceptInvitation_expired_leaves_row_unchanged
    (db : DBState) (now userId : Nat) (token : String) (inv : Invitation)
    (hfind : findInvitationByToken db.invitations token = some inv)
    (hpend : inv.status = statusPending)
    (hexp : inv.expiresAt < now) :
    acceptInvitation db db now userId token = ⟨none, some inv, some .invitationExpired, db⟩ := by
  unfold acceptInvitation
  rw [hfind]
  simp [hpend, hexp, statusPending]

/-- Witness for C3: a concrete expired pending invitation. -/
theorem acceptInvitation_expired_leaves_row_unchanged_witness :
    acceptInvitation exDb exDb 2000 5 "tok" =
      ⟨none, some exInvitation, some .invitationExpired, exDb⟩ :=
  acceptInvitation_expired_leaves_row_unchanged exDb 2000 5 "tok" exInvitation rfl rfl
    (by decide)

/-- C5: when signature verification fails, the webhook endpoint returns the
client-error outcome and the storage state — universally quantified, so the
run neither reads nor writes storage — is untouched. -/
theorem webhook_unverified_no_storage_access
    (verify : String → String → String → Option StripeEvent)
    (fetchSub : String → Option StripeSubscription)
    (parseUserId : String → Option Nat)
    (webhookSecret stripeKey payload signature : String)
    (hsig : signature ≠ "") (hsecret : webhookSecret ≠ "")
    (hverify : verify payload signature webhookSecret = none) :
    ∀ st : DBState,
      postStripeWebhook st verify fetchSub parseUserId webhookSecret stripeKey
        payload signature = (.httpError 400, st) := by
  intro st
  unfold postStripeWebhook
  rw [hverify]
  simp [hsig, hsecret]

/-- Witness for C5: a verifier rejecting a concrete payload/signature pair. -/
theorem webhook_unverified_no_storage_access_witness :
    postStripeWebhook exDb (fun _ _ _ => none) (fun _ => none) (fun _ => none)
      "whsec" "sk" "payload" "bad-sig" = (.httpError 400, exDb) :=
  webhook_unverified_no_storage_access (fun _ _ _ => none) (fun _ => none) (fun _ => none)
    "whsec" "sk" "payload" "bad-sig" (by decide) (by decide) rfl exDb

/-- C6: a subscription-updated event whose external id matches no local row is
acknowledged with the success outcome and the entire storage state is left
unchanged. -/
theorem webhook_subscriptionUpdated_unknown_noop
    (st : DBState)
    (verify : String → String → String → Option StripeEvent)
    (fetchSub : String → Option StripeSubscription)
    (parseUserId : String → Option Nat)
    (webhookSecret stripeKey payload signature : String)
    (sub : StripeSubscription)
    (hsig : signature ≠ "") (hsecret : webhookSecret ≠ "") (hkey : stripeKey ≠ "")
    (hverify : verify payload signature webhookSecret =
      some (.subscriptionUpdated (some sub)))
    (hmiss : findSubscriptionByStripeId st.subscriptions sub.id = none) :
    postStripeWebhook st verify fetchSub parseUserId webhookSecret stripeKey
      payload signature = (.ok, st) := by
  unfold postStripeWebhook
  rw [hverify]
  simp [handleSubscriptionUpdated, hsig, hsecret, hkey, hmiss]

/-- Witness for C6: an update event for external id absent from storage. -/
theorem webhook_subscriptionUpdated_unknown_noop_witness :
    postStripeWebhook exDb
      (fun _ _ _ => some (.subscriptionUpdated (some ⟨"sub_x", "active", 0, 0, false, []⟩)))
      (fun _ => none) (fun _ => none) "whsec" "sk" "payload" "sig" = (.ok, exDb) :=
  webhook_subscriptionUpdated_unknown_noop exDb
    (fun _ _ _ => some (.subscriptionUpdated (some ⟨"sub_x", "active", 0, 0, false, []⟩)))
    (fun _ => none) (fun _ => none) "whsec" "sk" "payload" "sig"
    ⟨"sub_x", "active", 0, 0, false, []⟩ (by decide) (by decide) (by decide) rfl rfl

/-- C7 (code bug): a checkout-completed event whose customer object is absent
makes the handler panic on the nil dereference in the entry log
(subscription.go line 221) instead of returning the claimed bad-request
data-shape error; the storage state is untouched only because the run dies. -/
theorem checkout_nil_customer_panics :
    handleCheckoutSessionCompleted exEmptyDb (fun _ => none) (fun _ => none)
      exSessionNilCustomer = (.panicNilDeref, exEmptyDb) ∧
    HandlerOutcome.panicNilDeref ≠ .httpError 400 := by
  constructor
  · rfl
  · decide

/-- C8 (code bug): an invoice-paid event with no linked subscription makes the
handler panic on the nil dereference in the entry log (subscription.go line
397) instead of being the claimed no-op success. -/
theorem invoicePaid_nil_subscription_panics :
    handleInvoicePaid exEmptyDb exInvoiceNilSubscription = (.panicNilDeref, exEmptyDb) ∧
    HandlerOutcome.panicNilDeref ≠ .ok := by
  constructor
  · rfl
  · decide

/-- C1 (amended): when the guarded pending-only write affects zero rows, both
operations re-read the entity and return a conflict error carrying the
observed state, regardless of whether that state equals the desired target;
an idempotent success is produced only when `UpdateInvitationStatus` sees the
target status already at its initial read, before the guarded write. -/
theorem zero_rows_reclassify_always_conflict :
    (∀ (db0 dbMid : DBState) (invitationId : Nat) (newStatus : String) (inv : Invitation),
      findInvitationById db0.invitations invitationId = some inv →
      inv.status = newStatus →
      updateInvitationStatus db0 dbMid invitationId newStatus = ⟨some inv, none, dbMid⟩) ∧
    (∀ (db0 dbMid : DBState) (invitationId : Nat) (newStatus : String) (inv : Invitation),
      findInvitationById db0.invitations invitationId = some inv →
      inv.status = statusPending → newStatus ≠ statusPending →
      guardedRowsAffected dbMid.invitations invitationId = 0 →
      updateInvitationStatus db0 dbMid invitationId newStatus =
        ⟨some ((findInvitationById dbMid.invitations invitationId).getD inv),
          some .statusChangedUnexpectedly, dbMid⟩) ∧
    (∀ (db0 dbMid : DBState) (now userId : Nat) (token : String) (inv : Invitation) (u : User),
      findInvitationByToken db0.invitations token = some inv →
      inv.status = statusPending → ¬ inv.expiresAt < now →
      findUserById db0.users userId = some u → u.email = inv.email →
      guardedRowsAffected dbMid.invitations inv.id = 0 →
      acceptInvitation db0 dbMid now userId token =
        ⟨none, some ((findInvitationByToken dbMid.invitations token).getD inv),
          some .acceptUpdateRaceFailed, dbMid⟩) := by
  refine ⟨?_, ?_, ?_⟩
  · intro db0 dbMid invitationId newStatus inv hfind hs
    unfold updateInvitationStatus
    rw [hfind]
    simp [hs]
  · intro db0 dbMid invitationId newStatus inv hfind hpend hns hz
    unfold updateInvitationStatus
    rw [hfind]
    have hne : statusPending ≠ newStatus := fun h => hns h.symm
    simp [hpend, hne, hz]
  · intro db0 dbMid now userId token inv u hfind hpend hexp huser hemail hz
    unfold acceptInvitation
    rw [hfind]
    simp [hpend, hexp, huser, hemail, hz]

/-- Witness for C1's amended theorem: all three conjuncts applied at concrete
states — the declined-under-our-feet race for decline and for accept, and the
already-declined initial read. -/
theorem zero_rows_reclassify_always_conflict_witness :
    updateInvitationStatus exDb exDbDeclined 1 statusDeclined =
      ⟨some exInvitationDeclined, some .statusChangedUnexpectedly, exDbDeclined⟩ ∧
    acceptInvitation exDb exDbDeclined 500 5 "tok" =
      ⟨none, some exInvitationDeclined, some .acceptUpdateRaceFailed, exDbDeclined⟩ ∧
    updateInvitationStatus exDbDeclined exDbDeclined 1 statusDeclined =
      ⟨some exInvitationDeclined, none, exDbDeclined⟩ := by
  refine ⟨?_, ?_, ?_⟩
  · exact zero_rows_reclassify_always_conflict.2.1 exDb exDbDeclined 1 statusDeclined
      exInvitation rfl rfl (by decide) rfl
  · exact zero_rows_reclassify_always_conflict.2.2 exDb exDbDeclined 500 5 "tok"
      exInvitation exUser rfl rfl (by decide) rfl rfl rfl
  · exact zero_rows_reclassify_always_conflict.1 exDbDeclined exDbDeclined 1 statusDeclined
      exInvitationDeclined rfl rfl

/-- C10: when a membership row for (acting user, team) already exists,
`AcceptInvitation` returns the stored row and writes nothing to the membership
table — the existing role survives even when it differs from the offered one;
the offered role is used only for a freshly inserted row. -/
theorem acceptInvitation_keeps_existing_role
    (db : DBState) (now userId : Nat) (token : String) (inv : Invitation) (u : User)
    (hfind : findInvitationByToken db.invitations token = some inv)
    (hpend : inv.status = statusPending)
    (hexp : ¬ inv.expiresAt < now)
    (huser : findUserById db.users userId = some u)
    (hemail : u.email = inv.email) :
    (∀ m : Membership,
      findMembershipByUserAndTeam db.memberships userId inv.teamId = some m →
      (acceptInvitation db db now userId token).membership = some m ∧
      (acceptInvitation db db now userId token).db.memberships = db.memberships) ∧
    (findMembershipByUserAndTeam db.memberships userId inv.teamId = none →
      (acceptInvitation db db now userId token).membership =
        some ⟨freshMembershipId db.memberships, userId, inv.teamId, inv.role, false⟩) := by
  constructor
  · intro m hm
    rw [acceptInvitation_existing_success db now userId token inv u m hfind hpend hexp huser
      hemail hm]
    exact ⟨rfl, rfl⟩
  · intro hm
    rw [acceptInvitation_fresh_success db now userId token inv u hfind hpend hexp huser
      hemail hm]

/-- Witness for C10: the invited user already holds the admin role while the
invitation offers member; accepting keeps the admin row untouched. -/
theorem acceptInvitation_keeps_existing_role_witness :
    (acceptInvitation exDbWithMembership exDbWithMembership 500 5 "tok").membership =
      some exMembershipAdmin ∧
    (acceptInvitation exDbWithMembership exDbWithMembership 500 5 "tok").db.memberships =
      [exMembershipAdmin] :=
  (acceptInvitation_keeps_existing_role exDbWithMembership 500 5 "tok" exInvitation exUser
    rfl rfl (by decide) rfl rfl).1 exMembershipAdmin rfl

/-- C2: two racing Accept calls against the same pending invitation,
serialized by the storage transaction layer (spec section 5): the first
observes the fresh pending→accepted transition and inserts the single
membership row; the second observes the already-accepted terminal state,
returns the conflict error carrying it, performs no write at all, and exactly
one membership row for (user, team) exists afterwards. -/
theorem acceptInvitation_race_exactly_one_membership
    (db : DBState) (now userId : Nat) (token : String) (inv : Invitation) (u : User)
    (hfind : findInvitationByToken db.invitations token = some inv)
    (hpend : inv.status = statusPending)
    (hexp : ¬ inv.expiresAt < now)
    (huser : findUserById db.users userId = some u)
    (hemail : u.email = inv.email)
    (hmem : findMembershipByUserAndTeam db.memberships userId inv.teamId = none)
    (hcount : countMembershipRows db.memberships userId inv.teamId = 0) :
    (acceptInvitation db db now userId token).err = none ∧
    (acceptInvitation db db now userId token).membership =
      some ⟨freshMembershipId db.memberships, userId, inv.teamId, inv.role, false⟩ ∧
    (acceptInvitation (acceptInvitation db db now userId token).db
        (acceptInvitation db db now userId token).db now userId token).err =
      some .invitationNoLongerPending ∧
    (acceptInvitation (acceptInvitation db db now userId token).db
        (acceptInvitation db db now userId token).db now userId token).membership = none ∧
    ((acceptInvitation (acceptInvitation db db now userId token).db
        (acceptInvitation db db now userId token).db now userId token).invitation.map
      Invitation.status) = some statusAccepted ∧
    (acceptInvitation (acceptInvitation db db now userId token).db
        (acceptInvitation db db now userId token).db now userId token).db =
      (acceptInvitation db db now userId token).db ∧
    countMembershipRows (acceptInvitation db db now userId token).db.memberships
      userId inv.teamId = 1 := by
  have h1 := acceptInvitation_fresh_success db now userId token inv u hfind hpend hexp huser
    hemail hmem
  set newM : Membership :=
    ⟨freshMembershipId db.memberships, userId, inv.teamId, inv.role, false⟩ with hnewM
  set db1 : DBState :=
    { db with
        memberships := db.memberships ++ [newM],
        invitations := applyGuardedStatusUpdate db.invitations inv.id statusAccepted }
    with hdb1
  have hfind1 : findInvitationByToken db1.invitations token =
      some { inv with status := statusAccepted } :=
    findInvitationByToken_after_guarded_update db.invitations token inv statusAccepted
      hfind hpend
  have h2 : acceptInvitation db1 db1 now userId token =
      ⟨none, some { inv with status := statusAccepted },
        some .invitationNoLongerPending, db1⟩ := by
    unfold acceptInvitation
    rw [hfind1]
    simp [statusAccepted, statusPending]
  have hcnt : countMembershipRows db1.memberships userId inv.teamId = 1 := by
    have hnewP : (!newM.deleted && newM.userId == userId && newM.teamId == inv.teamId) =
        true := by simp [hnewM]
    unfold countMembershipRows at hcount ⊢
    rw [hdb1]
    rw [List.countP_append, hcount, List.countP_cons, List.countP_nil, hnewP]
    simp
  rw [h1]
  refine ⟨rfl, rfl, ?_, ?_, ?_, ?_, hcnt⟩
  · rw [h2]
  · rw [h2]
  · rw [h2]
    rfl
  · rw [h2]

/-- Witness for C2: the concrete pending invitation accepted twice in a row. -/
theorem acceptInvitation_race_exactly_one_membership_witness :
    (acceptInvitation exDb exDb 500 5 "tok").err = none ∧
    (acceptInvitation exDb exDb 500 5 "tok").membership = some ⟨1, 5, 10, "member", false⟩ ∧
    (acceptInvitation (acceptInvitation exDb exDb 500 5 "tok").db
        (acceptInvitation exDb exDb 500 5 "tok").db 500 5 "tok").err =
      some .invitationNoLongerPending ∧
    (acceptInvitation (acceptInvitation exDb exDb 500 5 "tok").db
        (acceptInvitation exDb exDb 500 5 "tok").db 500 5 "tok").membership = none ∧
    ((acceptInvitation (acceptInvitation exDb exDb 500 5 "tok").db
        (acceptInvitation exDb exDb 500 5 "tok").db 500 5 "tok").invitation.map
      Invitation.status) = some statusAccepted ∧
    (acceptInvitation (acceptInvitation exDb exDb 500 5 "tok").db
        (acceptInvitation exDb exDb 500 5 "tok").db 500 5 "tok").db =
      (acceptInvitation exDb exDb 500 5 "tok").db ∧
    countMembershipRows (acceptInvitation exDb exDb 500 5 "tok").db.memberships 5 10 = 1 :=
  acceptInvitation_race_exactly_one_membership exDb 500 5 "tok" exInvitation exUser
    rfl rfl (by decide) rfl rfl rfl rfl

/-- C4: processing the same checkout-completed event twice — same session
payload, same provider detail — against a storage state not yet tracking the
external subscription id (the checkout is what creates the subscription
locally) succeeds both times and leaves exactly one Subscription row keyed by
that external id, whose plan, status, period bounds and cancel-at-period-end
flag equal the latest delivery's provider detail.  The redelivery takes the
found-row path of `Assign`+`FirstOrCreate`, whose UPDATE drops the record's
zero-valued fields; the dropped fields already hold the delivery's values
because the row was created from the identical first delivery. -/
theorem checkout_redelivery_single_subscription
    (st : DBState) (fetchSub : String → Option StripeSubscription)
    (parseUserId : String → Option Nat) (session : CheckoutSession)
    (customer subRef : StripeRef) (userId : Nat) (sub : StripeSubscription)
    (item0 : StripeSubItem) (price : StripePrice) (plan : Plan) (u : User)
    {o1 o2 : HandlerOutcome} {st1 st2 : DBState}
    (hcust : session.customer = some customer)
    (hsubr : session.subscription = some subRef)
    (href : session.clientReferenceID ≠ "")
    (hcid : customer.id ≠ "")
    (hsid : subRef.id ≠ "")
    (hparse : parseUserId session.clientReferenceID = some userId)
    (hfetch : fetchSub subRef.id = some sub)
    (hitem : sub.items.head? = some item0)
    (hprice : item0.price = some price)
    (hplan : findPlanByPrice st.plans price.id = some plan)
    (huser : findUserById st.users userId = some u)
    (hcount : countSubscriptionsByStripeId st.subscriptions subRef.id = 0)
    (hrun1 : handleCheckoutSessionCompleted st fetchSub parseUserId session = (o1, st1))
    (hrun2 : handleCheckoutSessionCompleted st1 fetchSub parseUserId session = (o2, st2)) :
    o1 = .ok ∧ o2 = .ok ∧
    countSubscriptionsByStripeId st2.subscriptions subRef.id = 1 ∧
    ∀ s ∈ st2.subscriptions, s.stripeSubscriptionID = subRef.id →
      s.planId = plan.id ∧ s.status = sub.status ∧
      s.currentPeriodStart = sub.currentPeriodStart ∧
      s.currentPeriodEnd = sub.currentPeriodEnd ∧
      s.cancelAtPeriodEnd = sub.cancelAtPeriodEnd := by
  have hcount' : st.subscriptions.countP
      (fun s => s.stripeSubscriptionID == subRef.id) = 0 := hcount
  have hp0 := List.countP_eq_zero.mp hcount'
  have hp0' : ∀ a ∈ st.subscriptions, (a.stripeSubscriptionID == subRef.id) = false :=
    fun a ha => by simpa using hp0 a ha
  have hany0 : (st.subscriptions.any fun s => s.stripeSubscriptionID == subRef.id) = false :=
    List.any_eq_false.mpr hp0
  have hupsert1 : upsertSubscriptionByStripeId st.subscriptions
      ⟨0, userId, plan.id, subRef.id, sub.status, sub.currentPeriodStart,
        sub.currentPeriodEnd, sub.cancelAtPeriodEnd⟩ =
      st.subscriptions ++
        [⟨freshSubscriptionId st.subscriptions, userId, plan.id, subRef.id, sub.status,
          sub.currentPeriodStart, sub.currentPeriodEnd, sub.cancelAtPeriodEnd⟩] := by
    unfold upsertSubscriptionByStripeId
    rw [if_neg]
    simp [hany0]
  have h1 : handleCheckoutSessionCompleted st fetchSub parseUserId session =
      (.ok, { st with
                users := setUserStripeCustomerId st.users userId customer.id,
                subscriptions := st.subscriptions ++
                  [⟨freshSubscriptionId st.subscriptions, userId, plan.id, subRef.id,
                    sub.status, sub.currentPeriodStart, sub.currentPeriodEnd,
                    sub.cancelAtPeriodEnd⟩] }) := by
    unfold handleCheckoutSessionCompleted
    rw [hcust, hsubr]
    simp [href, hcid, hsid, hparse, hfetch, hitem, hprice, hplan, huser, hupsert1]
  rw [h1] at hrun1
  injection hrun1 with ho1 hst1
  subst ho1
  subst hst1
  have huser1 : findUserById
      (setUserStripeCustomerId st.users userId customer.id) userId =
      some (if (u.id == userId) = true then { u with stripeCustomerId := customer.id }
        else u) :=
    findUserById_after_setStripe st.users userId customer.id u huser
  have hanyA : ((st.subscriptions ++
      [(⟨freshSubscriptionId st.subscriptions, userId, plan.id, subRef.id, sub.status,
        sub.currentPeriodStart, sub.currentPeriodEnd,
        sub.cancelAtPeriodEnd⟩ : Subscription)]).any
        fun s => s.stripeSubscriptionID == subRef.id) = true := by
    simp
  have hupsert2 : upsertSubscriptionByStripeId
      (st.subscriptions ++
        [⟨freshSubscriptionId st.subscriptions, userId, plan.id, subRef.id, sub.status,
          sub.currentPeriodStart, sub.currentPeriodEnd, sub.cancelAtPeriodEnd⟩])
      ⟨0, userId, plan.id, subRef.id, sub.status, sub.currentPeriodStart,
        sub.currentPeriodEnd, sub.cancelAtPeriodEnd⟩ =
      st.subscriptions ++
        [⟨freshSubscriptionId st.subscriptions, userId, plan.id, subRef.id, sub.status,
          sub.currentPeriodStart, sub.currentPeriodEnd, sub.cancelAtPeriodEnd⟩] := by
    unfold upsertSubscriptionByStripeId
    rw [if_pos hanyA]
    rw [List.map_append]
    congr 1
    · refine map_id_of_pred_false _ (fun s => s.stripeSubscriptionID == subRef.id)
        ?_ st.subscriptions hp0'
      intro a ha
      simp [ha]
    · simp only [List.map_cons, List.map_nil]
      rw [if_pos (by simp), assignFields_created]
  have h2 : handleCheckoutSessionCompleted
      { st with
          users := setUserStripeCustomerId st.users userId customer.id,
          subscriptions := st.subscriptions ++
            [⟨freshSubscriptionId st.subscriptions, userId, plan.id, subRef.id, sub.status,
              sub.currentPeriodStart, sub.currentPeriodEnd, sub.cancelAtPeriodEnd⟩] }
      fetchSub parseUserId session =
      (.ok, { st with
                users := setUserStripeCustomerId
                  (setUserStripeCustomerId st.users userId customer.id) userId customer.id,
                subscriptions := st.subscriptions ++
                  [⟨freshSubscriptionId st.subscriptions, userId, plan.id, subRef.id,
                    sub.status, sub.currentPeriodStart, sub.currentPeriodEnd,
                    sub.cancelAtPeriodEnd⟩] }) := by
    unfold handleCheckoutSessionCompleted
    rw [hcust, hsubr]
    simp [href, hcid, hsid, hparse, hfetch, hitem, hprice, hplan, huser1, hupsert2]
  rw [h2] at hrun2
  injection hrun2 with ho2 hst2
  subst ho2
  subst hst2
  refine ⟨rfl, rfl, ?_, ?_⟩
  · have hc1 : (st.subscriptions ++
        [(⟨freshSubscriptionId st.subscriptions, userId, plan.id, subRef.id, sub.status,
          sub.currentPeriodStart, sub.currentPeriodEnd,
          sub.cancelAtPeriodEnd⟩ : Subscription)]).countP
        (fun s => s.stripeSubscriptionID == subRef.id) = 1 := by
      rw [List.countP_append, hcount', List.countP_cons, List.countP_nil]
      simp
    exact hc1
  · intro s hs hsid2
    rcases List.mem_append.mp hs with hmem | hmem
    · exact absurd (by simpa using hsid2) (hp0 s hmem)
    · have hsnr : s = (⟨freshSubscriptionId st.subscriptions, userId, plan.id, subRef.id,
          sub.status, sub.currentPeriodStart, sub.currentPeriodEnd,
          sub.cancelAtPeriodEnd⟩ : Subscription) := by simpa using hmem
      subst hsnr
      exact ⟨rfl, rfl, rfl, rfl, rfl⟩

/-- Witness for C4: the concrete checkout event processed twice against the
one-user one-plan storage. -/
theorem checkout_redelivery_single_subscription_witness :
    (handleCheckoutSessionCompleted exStBilling exFetch exParse exSession).1 = .ok ∧
    (handleCheckoutSessionCompleted
      (handleCheckoutSessionCompleted exStBilling exFetch exParse exSession).2
      exFetch exParse exSession).1 = .ok ∧
    countSubscriptionsByStripeId
      ((handleCheckoutSessionCompleted
        (handleCheckoutSessionCompleted exStBilling exFetch exParse exSession).2
        exFetch exParse exSession).2).subscriptions "sub_1" = 1 := by
  have h := checkout_redelivery_single_subscription exStBilling exFetch exParse exSession
    ⟨"cus_1"⟩ ⟨"sub_1"⟩ 5 exStripeSub ⟨some ⟨"price_m"⟩⟩ ⟨"price_m"⟩ exPlan exUser
    rfl rfl (by decide) (by decide) (by decide) rfl rfl rfl rfl rfl rfl (by decide) rfl rfl
  exact ⟨h.1, h.2.1, h.2.2.1⟩

theorem statusInVocab_pending : statusInVocab statusPending := Or.inl rfl

theorem statusInVocab_accepted : statusInVocab statusAccepted := Or.inr (Or.inl rfl)

theorem statusInVocab_declined : statusInVocab statusDeclined := Or.inr (Or.inr rfl)

/-- The guarded status update writes only `ns`; all other rows keep their
status. -/
theorem statusesOK_guardedUpdate (l : List Invitation) (invitationId : Nat) (ns : String)
    (h : ∀ i ∈ l, statusInVocab i.status) (hns : statusInVocab ns) :
    ∀ i ∈ applyGuardedStatusUpdate l invitationId ns, statusInVocab i.status := by
  intro i hi
  rcases List.mem_map.mp hi with ⟨j, hj, heq⟩
  by_cases hc : guardedStatusCond invitationId j = true
  · rw [if_pos hc] at heq
    subst heq
    exact hns
  · rw [if_neg hc] at heq
    subst heq
    exact h j hj

/-- The soft delete touches only the deleted flag, never the status. -/
theorem statusesOK_softDelete (l : List Invitation) (invitationId : Nat)
    (h : ∀ i ∈ l, statusInVocab i.status) :
    ∀ i ∈ l.map
      (fun i => if !i.deleted && i.id == invitationId then { i with deleted := true } else i),
      statusInVocab i.status := by
  intro i hi
  rcases List.mem_map.mp hi with ⟨j, hj, heq⟩
  by_cases hc : (!j.deleted && j.id == invitationId) = true
  · rw [if_pos hc] at heq
    subst heq
    exact h j hj
  · rw [if_neg hc] at heq
    subst heq
    exact h j hj

/-- The `BeforeCreate` hook either keeps the incoming status or defaults an
empty one to pending. -/
theorem invitationBeforeCreate_status (inv : Invitation) (now : Nat) (stored : Invitation)
    (h : invitationBeforeCreate inv now = some stored) :
    stored.status = inv.status ∨ stored.status = statusPending := by
  unfold invitationBeforeCreate at h
  simp only [] at h
  by_cases h1 : (inv.status == "") = true
  · rw [if_pos h1] at h
    by_cases h2 : ((({ inv with status := statusPending } : Invitation)).expiresAt == 0) = true
    · rw [if_pos h2] at h
      by_cases h3 : ((({ inv with status := statusPending, expiresAt := now + 7 * 24 * 60 * 60 } :
          Invitation)).role == roleOwner) = true
      · rw [if_pos h3] at h
        exact absurd h (by simp)
      · rw [if_neg h3] at h
        split at h
        · injection h with h
          subst h
          exact Or.inr rfl
        · exact absurd h (by simp)
    · rw [if_neg h2] at h
      by_cases h3 : ((({ inv with status := statusPending } : Invitation)).role == roleOwner) = true
      · rw [if_pos h3] at h
        exact absurd h (by simp)
      · rw [if_neg h3] at h
        split at h
        · injection h with h
          subst h
          exact Or.inr rfl
        · exact absurd h (by simp)
  · rw [if_neg h1] at h
    by_cases h2 : (inv.expiresAt == 0) = true
    · rw [if_pos h2] at h
      by_cases h3 : ((({ inv with expiresAt := now + 7 * 24 * 60 * 60 } : Invitation)).role ==
          roleOwner) = true
      · rw [if_pos h3] at h
        exact absurd h (by simp)
      · rw [if_neg h3] at h
        split at h
        · injection h with h
          subst h
          exact Or.inl rfl
        · exact absurd h (by simp)
    · rw [if_neg h2] at h
      by_cases h3 : (inv.role == roleOwner) = true
      · rw [if_pos h3] at h
        exact absurd h (by simp)
      · rw [if_neg h3] at h
        split at h
        · injection h with h
          subst h
          exact Or.inl rfl
        · exact absurd h (by simp)

/-- The call `AcceptInvitation` either leaves the invitation table alone (any error
path) or applies the guarded pending→accepted update. -/
theorem acceptInvitation_invitations_shape (db0 dbMid : DBState) (now userId : Nat)
    (token : String) :
    (acceptInvitation db0 dbMid now userId token).db.invitations = dbMid.invitations ∨
    ∃ n, (acceptInvitation db0 dbMid now userId token).db.invitations =
      applyGuardedStatusUpdate dbMid.invitations n statusAccepted := by
  unfold acceptInvitation
  repeat' split
  all_goals first
  | exact Or.inl rfl
  | exact Or.inr ⟨_, rfl⟩

/-- The call `UpdateInvitationStatus` either leaves the invitation table alone or
applies the guarded pending→`ns` update. -/
theorem updateInvitationStatus_invitations_shape (db0 dbMid : DBState)
    (invitationId : Nat) (ns : String) :
    (updateInvitationStatus db0 dbMid invitationId ns).db.invitations =
      dbMid.invitations ∨
    (updateInvitationStatus db0 dbMid invitationId ns).db.invitations =
      applyGuardedStatusUpdate dbMid.invitations invitationId ns := by
  unfold updateInvitationStatus
  repeat' split
  all_goals first
  | exact Or.inl rfl
  | exact Or.inr rfl

/-- The call `DeleteInvitation` either leaves the invitation table alone or soft
deletes the found row. -/
theorem deleteInvitation_invitations_shape (db : DBState) (invitationId : Nat) :
    (deleteInvitation db invitationId).2.invitations = db.invitations ∨
    (deleteInvitation db invitationId).2.invitations =
      db.invitations.map
        (fun i => if !i.deleted && i.id == invitationId then { i with deleted := true }
          else i) := by
  unfold deleteInvitation
  repeat' split
  all_goals first
  | exact Or.inl rfl
  | exact Or.inr rfl

/-- Every repository entry point that writes invitation rows preserves the
status vocabulary. -/
theorem applyInvitationOp_preserves (db : DBState) (op : InvitationOp)
    (h : invitationStatusesOK db) : invitationStatusesOK (applyInvitationOp db op) := by
  cases op with
  | invite inv now =>
    rcases hbc : invitationBeforeCreate { inv with status := statusPending } now
        with _ | stored
    · have hre : applyInvitationOp db (.invite inv now) = db := by
        simp [applyInvitationOp, inviteMemberCreate, hbc]
      rw [hre]
      exact h
    · have hre : applyInvitationOp db (.invite inv now) =
          { db with invitations := db.invitations ++ [stored] } := by
        simp [applyInvitationOp, inviteMemberCreate, hbc]
      rw [hre]
      intro i hi
      have hi' : i ∈ db.invitations ++ [stored] := hi
      rcases List.mem_append.mp hi' with hmem | hmem
      · exact h i hmem
      · have his : i = stored := by simpa using hmem
        subst his
        rcases invitationBeforeCreate_status { inv with status := statusPending } now i hbc
            with hst | hst
        · rw [hst]
          exact statusInVocab_pending
        · rw [hst]
          exact statusInVocab_pending
  | accept now userId token =>
    unfold applyInvitationOp
    rcases acceptInvitation_invitations_shape db db now userId token with hs | ⟨n, hs⟩
    · intro i hi
      rw [hs] at hi
      exact h i hi
    · intro i hi
      rw [hs] at hi
      exact statusesOK_guardedUpdate db.invitations n statusAccepted h
        statusInVocab_accepted i hi
  | decline invitationId =>
    unfold applyInvitationOp
    rcases updateInvitationStatus_invitations_shape db db invitationId statusDeclined
        with hs | hs
    · intro i hi
      rw [hs] at hi
      exact h i hi
    · intro i hi
      rw [hs] at hi
      exact statusesOK_guardedUpdate db.invitations invitationId statusDeclined h
        statusInVocab_declined i hi
  | cancel invitationId =>
    unfold applyInvitationOp
    rcases deleteInvitation_invitations_shape db invitationId with hs | hs
    · intro i hi
      rw [hs] at hi
      exact h i hi
    · intro i hi
      rw [hs] at hi
      exact statusesOK_softDelete db.invitations invitationId h i hi

/-- A status in the vocabulary is neither "cancelled" nor "expired". -/
theorem statusInVocab_excludes (s : String) (h : statusInVocab s) :
    s ≠ "cancelled" ∧ s ≠ statusExpired := by
  rcases h with h | h | h <;> subst h <;> exact ⟨by decide, by decide⟩

/-- C9: starting from any storage state whose invitation statuses lie in
{pending, accepted, declined}, any sequence of the repository's
invitation-writing entry points (invite, accept, decline, cancel) keeps every
stored status in that vocabulary — in particular no operation ever stores
"cancelled" or "expired": cancellation soft-deletes and expiry is evaluated
only at read time. -/
theorem invitation_status_vocabulary_invariant (db : DBState) (ops : List InvitationOp)
    (h : invitationStatusesOK db) :
    invitationStatusesOK (ops.foldl applyInvitationOp db) ∧
    ∀ i ∈ (ops.foldl applyInvitationOp db).invitations,
      i.status ≠ "cancelled" ∧ i.status ≠ statusExpired := by
  have hmain : invitationStatusesOK (ops.foldl applyInvitationOp db) := by
    induction ops generalizing db with
    | nil => exact h
    | cons op t ih => exact ih (applyInvitationOp db op) (applyInvitationOp_preserves db op h)
  exact ⟨hmain, fun i hi => statusInVocab_excludes i.status (hmain i hi)⟩

/-- Witness for C9: the concrete pending invitation driven through accept,
then a redundant decline attempt, then a cancel attempt. -/
theorem invitation_status_vocabulary_invariant_witness :
    invitationStatusesOK
      (([.accept 500 5 "tok", .decline 1, .cancel 1] : List InvitationOp).foldl
        applyInvitationOp exDb) ∧
    ∀ i ∈ (([.accept 500 5 "tok", .decline 1, .cancel 1] : List InvitationOp).foldl
        applyInvitationOp exDb).invitations,
      i.status ≠ "cancelled" ∧ i.status ≠ statusExpired :=
  invitation_status_vocabulary_invariant exDb [.accept 500 5 "tok", .decline 1, .cancel 1]
    (by decide)

/-- C1 counterexample: the guarded decline write affects zero rows because a
concurrent caller already declined the row; the re-read observes exactly the
desired target status (`declined`), yet `UpdateInvitationStatus` returns the
conflict error rather than the idempotent success the claim requires. -/
theorem zero_rows_idempotent_success_refuted :
    guardedRowsAffected exDbDeclined.invitations 1 = 0 ∧
    (findInvitationById exDbDeclined.invitations 1).map Invitation.status =
      some statusDeclined ∧
    (updateInvitationStatus exDb exDbDeclined 1 statusDeclined).err =
      some .statusChangedUnexpectedly ∧
    (updateInvitationStatus exDb exDbDeclined 1 statusDeclined).err ≠ none := by
  refine ⟨rfl, rfl, rfl, by decide⟩

end Stab
